import Mathlib

/-!
Verification development for the frenet_optimal_planner repository.

The C++ sources are shallowly embedded over exact rational arithmetic:
`double` values become `ℚ`.  This idealized semantics has no infinities,
NaNs or subnormals; wherever a floating-point classification function
matters it is modelled on the exact values (`std::isnormal q` is false
exactly at `q = 0` for exact rationals outside the subnormal range), and
a comment marks the spot.  Fallible vector accesses (`.at`, `operator[]`
past the end, `.back()` on an empty vector) are modelled with `Option`:
`none` models the out-of-range access / undefined behaviour.

Functions of the repository that are only declared, not defined, under
`src/` (the quintic/quartic polynomial evaluators, `tf2` quaternion
conversion, `cos`/`sin`/`atan2`/`sqrt` on doubles, the tolerance
comparator `cmp_doubles_greater_or_equal`, `isLegal`) are abstracted as
function parameters: every theorem below holds for all instantiations,
in particular for the real ones.
-/

namespace fop

/-- Planner settings (`FrenetOptimalTrajectoryPlanner::Setting`).  Grid
sizes are C++ `int`s holding nonnegative counts, modelled as `ℕ`;
everything else is a `double`, modelled as `ℚ`. -/
structure Setting where
  max_speed : ℚ
  max_accel : ℚ
  max_decel : ℚ
  max_curvature : ℚ
  vehicle_length : ℚ
  vehicle_width : ℚ
  center_offset : ℚ
  num_width : ℕ
  num_speed : ℕ
  num_t : ℕ
  lowest_speed : ℚ
  highest_speed : ℚ
  min_t : ℚ
  max_t : ℚ
  tick_t : ℚ
  safety_margin_lon : ℚ
  safety_margin_lat : ℚ
  k_jerk : ℚ
  k_time : ℚ
  k_diff : ℚ
  k_lat : ℚ
  k_lon : ℚ
  deriving Repr, DecidableEq

/-- Frenet state `(s, s_d, s_dd, d, d_d, d_dd, T)` (`fop::FrenetState`). -/
structure FrenetState where
  s : ℚ
  s_d : ℚ
  s_dd : ℚ
  d : ℚ
  d_d : ℚ
  d_dd : ℚ
  T : ℚ
  deriving Repr, DecidableEq

/-- Candidate trajectory (`fop::FrenetPath`): per-tick sample arrays,
Cartesian extension, status flags and costs. -/
structure FrenetPath where
  lane_id : ℤ := 0
  end_state : FrenetState := ⟨0, 0, 0, 0, 0, 0, 0⟩
  t : List ℚ := []
  s : List ℚ := []
  s_d : List ℚ := []
  s_dd : List ℚ := []
  s_ddd : List ℚ := []
  d : List ℚ := []
  d_d : List ℚ := []
  d_dd : List ℚ := []
  d_ddd : List ℚ := []
  x : List ℚ := []
  y : List ℚ := []
  yaw : List ℚ := []
  ds : List ℚ := []
  c : List ℚ := []
  is_generated : Bool := false
  is_used : Bool := false
  constraint_passed : Bool := false
  collision_passed : Bool := false
  fix_cost : ℚ := 0
  hur_cost : ℚ := 0
  dyn_cost : ℚ := 0
  final_cost : ℚ := 0
  deriving Repr, DecidableEq

/-- Obstacle trajectory (`fop::Path`): per-tick `(x, y, yaw, v)` arrays. -/
structure ObstPath where
  x : List ℚ := []
  y : List ℚ := []
  yaw : List ℚ := []
  v : List ℚ := []
  deriving Repr, DecidableEq

/-- Model of `std::isnormal` on an exact rational double value: in the
idealized (infinite-precision, finite) semantics used here, the only
non-normal representable value is zero.  In particular
`std::isnormal(0.0) = false` holds exactly in C++, which is the fact the
development relies on. -/
def isnormalQ (q : ℚ) : Bool := q != 0

/-- One step of the `checkConstraints` loop, from index `i`, with `fuel`
remaining indices to inspect (the loop runs for `i < traj.c.size()`).
Out-of-range sample reads use `getD _ 0`; in the planner the arrays
`x`, `y`, `s_d`, `s_dd` are at least as long as `c`.  Mirrors the
early-exit structure of the source: the first violating index returns
`false` without looking further. -/
def checkConstraintsAux (cfg : Setting) (traj : FrenetPath) : ℕ → ℕ → Bool
  | 0, _ => true
  | fuel + 1, i =>
    if !(isnormalQ (traj.x.getD i 0)) || !(isnormalQ (traj.y.getD i 0)) then
      false
    else if traj.s_d.getD i 0 > cfg.max_speed then
      false
    else if traj.s_dd.getD i 0 > cfg.max_accel || traj.s_dd.getD i 0 < cfg.max_decel then
      false
    else if |traj.c.getD i 0| > cfg.max_curvature then
      false
    else
      checkConstraintsAux cfg traj fuel (i + 1)

/-- `FrenetOptimalTrajectoryPlanner::checkConstraints`: scans the ticks
`i < traj.c.size()`, stops at the first violation, stores the verdict in
`constraint_passed` and returns it. -/
def checkConstraints (cfg : Setting) (traj : FrenetPath) : Bool × FrenetPath :=
  let passed := checkConstraintsAux cfg traj traj.c.length 0
  (passed, { traj with constraint_passed := passed })

/-- The per-tick condition of claim C1, worded as the spec words it
(`isfinite(x,y)` — always true of an exact rational value — and the
speed / acceleration / curvature bounds). -/
def specTickOk (cfg : Setting) (traj : FrenetPath) (i : ℕ) : Prop :=
  traj.s_d.getD i 0 ≤ cfg.max_speed ∧
  cfg.max_decel ≤ traj.s_dd.getD i 0 ∧ traj.s_dd.getD i 0 ≤ cfg.max_accel ∧
  |traj.c.getD i 0| ≤ cfg.max_curvature

instance (cfg : Setting) (traj : FrenetPath) (i : ℕ) :
    Decidable (specTickOk cfg traj i) := by
  unfold specTickOk; infer_instance

/-- Claim C1 as stated, at one input: the checker returns true iff every
tick satisfies the spec condition (finiteness plus kinematic bounds). -/
def C1ClaimAt (cfg : Setting) (traj : FrenetPath) : Prop :=
  (checkConstraints cfg traj).1 = true ↔ ∀ i < traj.x.length, specTickOk cfg traj i

instance (cfg : Setting) (traj : FrenetPath) : Decidable (C1ClaimAt cfg traj) := by
  unfold C1ClaimAt; infer_instance

/-- The per-tick condition the code actually enforces: `std::isnormal`
on both coordinates (false at exact zero) plus the kinematic bounds. -/
def codeTickOk (cfg : Setting) (traj : FrenetPath) (i : ℕ) : Prop :=
  isnormalQ (traj.x.getD i 0) = true ∧ isnormalQ (traj.y.getD i 0) = true ∧
  traj.s_d.getD i 0 ≤ cfg.max_speed ∧
  cfg.max_decel ≤ traj.s_dd.getD i 0 ∧ traj.s_dd.getD i 0 ≤ cfg.max_accel ∧
  |traj.c.getD i 0| ≤ cfg.max_curvature

instance (cfg : Setting) (traj : FrenetPath) (i : ℕ) :
    Decidable (codeTickOk cfg traj i) := by
  unfold codeTickOk; infer_instance

/-- Input data of one detected obstacle, as consumed by
`predictTrajectories`: planar pose, derived yaw (the `tf2` quaternion to
roll/pitch/yaw conversion is external code, so the yaw and its cosine
and sine enter as values), and speed `v = ‖(vx,vy,vz)‖` (the `magnitude`
helper is likewise external). -/
structure ObstacleIn where
  x : ℚ
  y : ℚ
  yaw : ℚ
  cosYaw : ℚ
  sinYaw : ℚ
  v : ℚ
  deriving Repr, DecidableEq

/-- The body of the prediction loop, iterated `steps` times.  Faithful
to the source, including the slip on the second push: the second
propagated value — computed from `y.back()` with the sine — is appended
to `x` again (`obstacle_traj.x.push_back(obstacle_traj.y.back() + v*tick_t*sin(yaw))`),
so `y` never grows.  `.back()` reads are modelled with `getLastD 0`;
both vectors are nonempty throughout (one initial push each). -/
def predictStep (tick_t : ℚ) (ob : ObstacleIn) (tr : ObstPath) : ObstPath :=
  { tr with
    x := (tr.x ++ [tr.x.getLastD 0 + ob.v * tick_t * ob.cosYaw])
          ++ [tr.y.getLastD 0 + ob.v * tick_t * ob.sinYaw]
    yaw := tr.yaw ++ [ob.yaw]
    v := tr.v ++ [ob.v] }

/-- Prediction for one obstacle (`predictTrajectories` loop body):
initial sample from the pose, then `steps = int(max_t / tick_t)` steps
of constant-velocity propagation.  The `int` conversion truncates;
for the nonnegative quotients of interest this is the floor. -/
def predictOne (cfg : Setting) (ob : ObstacleIn) : ObstPath :=
  let steps : ℕ := (cfg.max_t / cfg.tick_t).floor.toNat
  (List.range steps).foldl (fun tr _ => predictStep cfg.tick_t ob tr)
    ⟨[ob.x], [ob.y], [ob.yaw], [ob.v]⟩

/-- `FrenetOptimalTrajectoryPlanner::predictTrajectories`: one predicted
trajectory per detected obstacle. -/
def predictTrajectories (cfg : Setting) (obs : List ObstacleIn) : List ObstPath :=
  obs.map (predictOne cfg)

/-- The spec lengths of claim C2: all four arrays of a predicted
trajectory have `⌊max_t / tick_t⌋ + 1` entries. -/
def C2SpecLengthsAt (cfg : Setting) (ob : ObstacleIn) : Prop :=
  let n := (cfg.max_t / cfg.tick_t).floor.toNat + 1
  (predictOne cfg ob).x.length = n ∧ (predictOne cfg ob).y.length = n ∧
  (predictOne cfg ob).yaw.length = n ∧ (predictOne cfg ob).v.length = n

instance (cfg : Setting) (ob : ObstacleIn) : Decidable (C2SpecLengthsAt cfg ob) := by
  unfold C2SpecLengthsAt; infer_instance

/-- The index reads `checkTrajCollision` performs into the predicted
obstacle trajectories: for each obstacle `i` and each ego tick
`j < ego_traj.x.size()` it reads `obstacle_trajs[i].x[j]`, `.y[j]` and
`.yaw[j]` (source lines 685-698).  This predicate says all those reads
are within the array lengths. -/
def collisionReadsInBounds (ego : FrenetPath) (obstacle_trajs : List ObstPath) : Prop :=
  ∀ i < obstacle_trajs.length, ∀ j < ego.x.length,
    j < (obstacle_trajs.getD i ⟨[], [], [], []⟩).x.length ∧
    j < (obstacle_trajs.getD i ⟨[], [], [], []⟩).y.length ∧
    j < (obstacle_trajs.getD i ⟨[], [], [], []⟩).yaw.length

instance (ego : FrenetPath) (obstacle_trajs : List ObstPath) :
    Decidable (collisionReadsInBounds ego obstacle_trajs) := by
  unfold collisionReadsInBounds; infer_instance

/-- Concrete configuration for the predictor runs: `max_t = 1`,
`tick_t = 1/2`, so `steps = 2` and the spec expects 3 samples. -/
def predCfg : Setting :=
  { max_speed := 0, max_accel := 0, max_decel := 0, max_curvature := 0
    vehicle_length := 0, vehicle_width := 0, center_offset := 0
    num_width := 0, num_speed := 0, num_t := 0
    lowest_speed := 0, highest_speed := 0
    min_t := 0, max_t := 1, tick_t := 1/2
    safety_margin_lon := 0, safety_margin_lat := 0
    k_jerk := 0, k_time := 0, k_diff := 0, k_lat := 0, k_lon := 0 }

/-- Concrete obstacle: at the origin, yaw 0 (cosine 1, sine 0), speed 1. -/
def predObstacle : ObstacleIn := ⟨0, 0, 0, 1, 0, 1⟩

/-- The exact value of `std::numeric_limits<double>::max()`,
`(2 - 2^-52) * 2^1023 = 2^1024 - 2^971`, written as a literal so that
concrete comparisons against it evaluate; `dblMax_eq` checks the
literal. -/
def dblMax : ℚ := 179769313486231570814527423731704356798070567525844996598917476803157260780028538760589558632766878171540458953514382464234321326889464182768467546703537516986049910576551282076245490090389328944075868508455133942304583236903222948165808559332123348274797826204144723168738177180919299881250404026184124858368

/-- Running strict minimum with its first achiever, the argmin idiom of
`sampleEndStates`: state `(m, o)` is the best estimated cost so far and
the index holding it (`none` models the still-uninitialized `idx`);
a list element updates it only when strictly cheaper. -/
def runMin {α : Type} (f : α → ℚ) : List α → ℚ × Option α → ℚ × Option α
  | [], s => s
  | a :: l, (m, o) => runMin f l (if f a < m then (f a, some a) else (m, o))

/-- Row-major enumeration of the `N_w × N_v × N_t` grid, matching the
nesting order of the three sampling loops (lateral, speed, time). -/
def enum3 (nw nv nt : ℕ) : List (ℕ × ℕ × ℕ) :=
  (List.range nw).flatMap fun i =>
    (List.range nv).flatMap fun j =>
      (List.range nt).map fun k => (i, j, k)

/-- Lateral sampling step
`delta_width = (left_bound - center_offset)/((num_width - 1)/2)`.
`(num_width - 1)/2` is C++ `int` division; for `num_width ≥ 1` it agrees
with the `ℕ` division used here.  A zero divisor (`num_width ≤ 2`) gives
`inf` in C++ and `0` in `ℚ`; the claims below never hit that case. -/
def deltaWidth (cfg : Setting) (left_bound : ℚ) : ℚ :=
  (left_bound - cfg.center_offset) / (((cfg.num_width - 1) / 2 : ℕ) : ℚ)

/-- Lateral end offset of column `i`: `d = right_bound + i * delta_width`. -/
def sampleD (cfg : Setting) (left_bound right_bound : ℚ) (i : ℕ) : ℚ :=
  right_bound + (i : ℚ) * deltaWidth cfg left_bound

/-- `lat_cost = (d - center_offset)^2 / max((left-c)^2, (right-c)^2)`. -/
def latCost (cfg : Setting) (left_bound right_bound : ℚ) (i : ℕ) : ℚ :=
  (sampleD cfg left_bound right_bound i - cfg.center_offset) ^ 2 /
    max ((left_bound - cfg.center_offset) ^ 2) ((right_bound - cfg.center_offset) ^ 2)

/-- End speed of row `j`:
`v = lowest_speed + j * (highest_speed - lowest_speed)/(num_speed - 1)`.
`num_speed - 1` is C++ `int` subtraction; `ℕ` subtraction agrees for
`num_speed ≥ 1`. -/
def sampleV (cfg : Setting) (j : ℕ) : ℚ :=
  cfg.lowest_speed + (j : ℚ) * ((cfg.highest_speed - cfg.lowest_speed) / ((cfg.num_speed - 1 : ℕ) : ℚ))

/-- `speed_cost = (highest_speed - v)^2 + 0.5*(current_speed - v)^2`. -/
def speedCost (cfg : Setting) (current_speed : ℚ) (j : ℕ) : ℚ :=
  (cfg.highest_speed - sampleV cfg j) ^ 2 + (1 / 2) * (current_speed - sampleV cfg j) ^ 2

/-- Planning horizon of layer `k`:
`T = min_t + k * (max_t - min_t)/(num_t - 1)`. -/
def sampleT (cfg : Setting) (k : ℕ) : ℚ :=
  cfg.min_t + (k : ℚ) * ((cfg.max_t - cfg.min_t) / ((cfg.num_t - 1 : ℕ) : ℚ))

/-- `time_cost = 1 - T/max_t`. -/
def timeCost (cfg : Setting) (k : ℕ) : ℚ :=
  1 - sampleT cfg k / cfg.max_t

/-- Fixed cost of cell `(i,j,k)`:
`k_lat*k_diff*lat_cost + k_lon*(k_time*time_cost + k_diff*speed_cost)`. -/
def fixCost (cfg : Setting) (left_bound right_bound current_speed : ℚ) (i j k : ℕ) : ℚ :=
  cfg.k_lat * cfg.k_diff * latCost cfg left_bound right_bound i +
    cfg.k_lon * (cfg.k_time * timeCost cfg k + cfg.k_diff * speedCost cfg current_speed j)

/-- Heuristic cost of column `i`: `k_lat*k_diff*(start.d - d)^2`. -/
def hurCost (cfg : Setting) (start_d left_bound right_bound : ℚ) (i : ℕ) : ℚ :=
  cfg.k_lat * cfg.k_diff * (start_d - sampleD cfg left_bound right_bound i) ^ 2

/-- Estimated lower-bound cost `est_cost = fix_cost + hur_cost` of cell
`(i,j,k)`, the quantity the seed-index argmin scans. -/
def estCost (cfg : Setting) (start_d left_bound right_bound current_speed : ℚ)
    (t : ℕ × ℕ × ℕ) : ℚ :=
  fixCost cfg left_bound right_bound current_speed t.1 t.2.1 t.2.2 +
    hurCost cfg start_d left_bound right_bound t.1

/-- Seed cell `(i,j,k)` of the sampling grid: the
`FrenetPath(lane_id, end_state, fix_cost, hur_cost)` constructor leaves
all sample arrays empty and all flags false. -/
def seedCell (cfg : Setting) (lane_id : ℤ) (left_bound right_bound current_speed start_d : ℚ)
    (i j k : ℕ) : FrenetPath :=
  { lane_id := lane_id
    end_state :=
      { s := 0, s_d := sampleV cfg j, s_dd := 0
        d := sampleD cfg left_bound right_bound i, d_d := 0, d_dd := 0
        T := sampleT cfg k }
    fix_cost := fixCost cfg left_bound right_bound current_speed i j k
    hur_cost := hurCost cfg start_d left_bound right_bound i }

/-- `FrenetOptimalTrajectoryPlanner::sampleEndStates`: builds the dense
`num_width × num_speed × num_t` grid of seed cells and the index of the
first cell whose `est_cost` strictly improves on
`std::numeric_limits<double>::max()` and on every earlier cell.  `none`
models the uninitialized `Eigen::Vector3i idx` that is returned when no
cell ever updates the minimum. -/
def sampleEndStates (cfg : Setting) (lane_id : ℤ)
    (left_bound right_bound current_speed start_d : ℚ) :
    List (List (List FrenetPath)) × Option (ℕ × ℕ × ℕ) :=
  ((List.range cfg.num_width).map fun i =>
      (List.range cfg.num_speed).map fun j =>
        (List.range cfg.num_t).map fun k =>
          seedCell cfg lane_id left_bound right_bound current_speed start_d i j k,
    (runMin (estCost cfg start_d left_bound right_bound current_speed)
      (enum3 cfg.num_width cfg.num_speed cfg.num_t) (dblMax, none)).2)

/-- Number of iterations of `for (double t = 0.0; t <= T; t += tick_t)`
in exact arithmetic with `tick_t > 0`: none for `T < 0`, otherwise
`⌊T / tick_t⌋ + 1` (ticks `0, tick_t, ..., ⌊T/tick_t⌋ * tick_t`). -/
def numTicks (T tick : ℚ) : ℕ :=
  if T < 0 then 0 else (T / tick).floor.toNat + 1

/-- The tick instants `t = k * tick_t` of the sampling loops. -/
def ticks (T tick : ℚ) : List ℚ :=
  (List.range (numTicks T tick)).map fun k => (k : ℚ) * tick

/-- Squared-jerk accumulator: `Σ_t f(t)^2` over the sampled ticks, where
`f` is the third derivative of the fitted polynomial. -/
def jerkSum (f : ℚ → ℚ) (T tick : ℚ) : ℚ :=
  ((ticks T tick).map fun t => f t ^ 2).sum

/-- `dyn_cost = k_jerk * (k_lon * jerk_s + k_lat * jerk_d)`. -/
def dynCostOf (cfg : Setting) (jerk_s jerk_d : ℚ) : ℚ :=
  cfg.k_jerk * (cfg.k_lon * jerk_s + cfg.k_lat * jerk_d)

/-- Evaluators of a fitted polynomial: point value and first three
derivatives.  The quintic/quartic solvers live in
`common/quintic_polynomial.h` / `common/quartic_polynomial.cc`, whose
definitions are not under `src/`; the search and cost theorems hold for
every instantiation of these functions. -/
structure PolyEval where
  p : ℚ → ℚ
  d1 : ℚ → ℚ
  d2 : ℚ → ℚ
  d3 : ℚ → ℚ

/-- The generation branch of `getTrajAndRealCost` (first visit of a
cell): fit the lateral quintic and longitudinal quartic from
`start_state_` to the cell's end state, sample all nine per-tick arrays,
accumulate the two squared-jerk sums, set `dyn_cost` and
`final_cost = fix_cost + dyn_cost`, and mark the cell `is_generated`. -/
def materialize (cfg : Setting) (quintic quartic : FrenetState → FrenetState → PolyEval)
    (start : FrenetState) (cell : FrenetPath) : FrenetPath :=
  let lat := quintic start cell.end_state
  let lon := quartic start cell.end_state
  let ts := ticks cell.end_state.T cfg.tick_t
  let jerk_d := jerkSum lat.d3 cell.end_state.T cfg.tick_t
  let jerk_s := jerkSum lon.d3 cell.end_state.T cfg.tick_t
  { cell with
    is_generated := true
    t := ts
    d := ts.map lat.p, d_d := ts.map lat.d1, d_dd := ts.map lat.d2, d_ddd := ts.map lat.d3
    s := ts.map lon.p, s_d := ts.map lon.d1, s_dd := ts.map lon.d2, s_ddd := ts.map lon.d3
    dyn_cost := dynCostOf cfg jerk_s jerk_d
    final_cost := cell.fix_cost + dynCostOf cfg jerk_s jerk_d }

/-- Read `trajs[i][j][k]` with the `Eigen::Vector3i` index: `none`
models the out-of-bounds `std::vector` access (undefined behaviour in
the C++). -/
def cellAt (g : List (List (List FrenetPath))) (idx : ℤ × ℤ × ℤ) : Option FrenetPath := do
  let l2 ← if 0 ≤ idx.1 then g.get? idx.1.toNat else none
  let l1 ← if 0 ≤ idx.2.1 then l2.get? idx.2.1.toNat else none
  if 0 ≤ idx.2.2 then l1.get? idx.2.2.toNat else none

/-- Write `trajs[i][j][k]` (no-op when out of range; every write of the
search is to a cell previously read successfully). -/
def setCell (g : List (List (List FrenetPath))) (idx : ℤ × ℤ × ℤ) (c : FrenetPath) :
    List (List (List FrenetPath)) :=
  if 0 ≤ idx.1 ∧ 0 ≤ idx.2.1 ∧ 0 ≤ idx.2.2 then
    g.set idx.1.toNat
      ((g.getD idx.1.toNat []).set idx.2.1.toNat
        (((g.getD idx.1.toNat []).getD idx.2.1.toNat []).set idx.2.2.toNat c))
  else g

/-- Search-side state: the grid, the candidate queue contents in push
order (`candidate_trajs_`), and the generated-trajectory counter
(`num_traj`). -/
structure SearchSt where
  grid : List (List (List FrenetPath))
  pushed : List FrenetPath
  num_traj : ℕ
  deriving Repr, DecidableEq

/-- `FrenetOptimalTrajectoryPlanner::getTrajAndRealCost`: return the
cached `final_cost` of an already-generated cell, otherwise materialize
it, push it into the candidate queue, bump `num_traj` and return its
fresh `final_cost`.  `none` models an out-of-bounds grid access. -/
def getTrajAndRealCost (cfg : Setting) (quintic quartic : FrenetState → FrenetState → PolyEval)
    (start : FrenetState) (st : SearchSt) (idx : ℤ × ℤ × ℤ) : Option (SearchSt × ℚ) := do
  let cell ← cellAt st.grid idx
  if cell.is_generated then
    some (st, cell.final_cost)
  else
    let cell := materialize cfg quintic quartic start cell
    some ({ grid := setCell st.grid idx cell
            pushed := st.pushed ++ [cell]
            num_traj := st.num_traj + 1 }, cell.final_cost)

/-- `FrenetOptimalTrajectoryPlanner::findDirection`: the probing
direction per axis is `+1` unless the index sits at (or beyond) the
upper boundary, in which case `-1`. -/
def findDirection (sizes idx : ℤ × ℤ × ℤ) : ℤ × ℤ × ℤ :=
  ((if idx.1 ≥ sizes.1 - 1 then -1 else 1),
   (if idx.2.1 ≥ sizes.2.1 - 1 then -1 else 1),
   (if idx.2.2 ≥ sizes.2.2 - 1 then -1 else 1))

/-- Add `d` to component `dim ∈ {0,1,2}` of an index triple. -/
def bumpIdx (idx : ℤ × ℤ × ℤ) (dim : ℕ) (d : ℤ) : ℤ × ℤ × ℤ :=
  match dim with
  | 0 => (idx.1 + d, idx.2.1, idx.2.2)
  | 1 => (idx.1, idx.2.1 + d, idx.2.2)
  | _ => (idx.1, idx.2.1, idx.2.2 + d)

/-- Component `dim` of an index triple. -/
def idxAt (idx : ℤ × ℤ × ℤ) (dim : ℕ) : ℤ :=
  match dim with
  | 0 => idx.1
  | 1 => idx.2.1
  | _ => idx.2.2

/-- The per-axis branch of `findGradients`: probe the neighbor in the
chosen direction, form the forward (right neighbor) or backward (left
neighbor) difference, and clamp the gradient to zero when the cell sits
at the boundary opposite the probe and the difference says descent would
leave the grid. -/
def gradientAtDim (cfg : Setting) (quintic quartic : FrenetState → FrenetState → PolyEval)
    (start : FrenetState) (sizes : ℤ × ℤ × ℤ) (idx : ℤ × ℤ × ℤ) (cost_center : ℚ)
    (dim : ℕ) (st : SearchSt) : Option (SearchSt × ℚ) := do
  let dir := idxAt (findDirection sizes idx) dim
  let next_idx := bumpIdx idx dim dir
  let (st, cost_next) ← getTrajAndRealCost cfg quintic quartic start st next_idx
  if dir ≥ 0 then
    let g := cost_next - cost_center
    some (st, if g ≥ 0 ∧ idxAt idx dim = 0 then 0 else g)
  else
    let g := cost_center - cost_next
    some (st, if g ≤ 0 ∧ idxAt idx dim = idxAt sizes dim - 1 then 0 else g)

/-- `trajs.size(), trajs[0].size(), trajs[0][0].size()` (the source
reads `trajs[0]` unconditionally; on an empty grid that access is
modelled by `getD _ []`, giving size 0). -/
def gridSizes (g : List (List (List FrenetPath))) : ℤ × ℤ × ℤ :=
  ((g.length : ℤ), ((g.getD 0 []).length : ℤ), (((g.getD 0 []).getD 0 []).length : ℤ))

/-- `FrenetOptimalTrajectoryPlanner::findGradients`: real cost of the
current cell and of one neighbor per axis, combined into the clamped
gradient vector. -/
def findGradients (cfg : Setting) (quintic quartic : FrenetState → FrenetState → PolyEval)
    (start : FrenetState) (st : SearchSt) (idx : ℤ × ℤ × ℤ) :
    Option (SearchSt × (ℚ × ℚ × ℚ)) := do
  let sizes := gridSizes st.grid
  let (st, cost_center) ← getTrajAndRealCost cfg quintic quartic start st idx
  let (st, g0) ← gradientAtDim cfg quintic quartic start sizes idx cost_center 0 st
  let (st, g1) ← gradientAtDim cfg quintic quartic start sizes idx cost_center 1 st
  let (st, g2) ← gradientAtDim cfg quintic quartic start sizes idx cost_center 2 st
  some (st, (g0, g1, g2))

/-- The argmax-|gradient| selection of `findNextBest`: starting from
axis 0, a later axis replaces the choice only when its gradient is
strictly larger in absolute value; returns `(grad_dim, max_grad)`. -/
def pickGradDim (g : ℚ × ℚ × ℚ) : ℕ × ℚ :=
  let s1 : ℕ × ℚ := if |g.2.1| > |g.1| then (1, g.2.1) else (0, g.1)
  if |g.2.2| > |s1.2| then (2, g.2.2) else s1

/-- `FrenetOptimalTrajectoryPlanner::findNextBest`: converged when the
current cell is already `is_used`; otherwise mark it used, compute the
gradients, and step one cell along the axis of largest |gradient| —
towards lower cost when that gradient is positive, towards higher index
otherwise.  Note the source steps even when the selected gradient is
zero.  Returns the new state, the new index and the convergence flag;
`none` models an out-of-bounds grid access. -/
def findNextBest (cfg : Setting) (quintic quartic : FrenetState → FrenetState → PolyEval)
    (start : FrenetState) (st : SearchSt) (idx : ℤ × ℤ × ℤ) :
    Option (SearchSt × (ℤ × ℤ × ℤ) × Bool) := do
  let cell ← cellAt st.grid idx
  if cell.is_used then
    some (st, idx, true)
  else
    let st := { st with grid := setCell st.grid idx { cell with is_used := true } }
    let (st, grads) ← findGradients cfg quintic quartic start st idx
    let (grad_dim, max_grad) := pickGradDim grads
    some (st, bumpIdx idx grad_dim (if max_grad > 0 then -1 else 1), false)

/-- The search loop of `frenetOptimalPlanning`
(`while (!converged) { converged = findNextBest(...); }`), run for at
most `fuel` iterations; returns the state, index and convergence flag
when the fuel runs out or convergence is reached, `none` on an
out-of-bounds access. -/
def searchLoop (cfg : Setting) (quintic quartic : FrenetState → FrenetState → PolyEval)
    (start : FrenetState) : ℕ → SearchSt → (ℤ × ℤ × ℤ) →
    Option (SearchSt × (ℤ × ℤ × ℤ) × Bool)
  | 0, st, idx => some (st, idx, false)
  | fuel + 1, st, idx => do
    let (st, idx, converged) ← findNextBest cfg quintic quartic start st idx
    if converged then
      some (st, idx, true)
    else
      searchLoop cfg quintic quartic start fuel st idx

/-- External math routines used by the conversion: `fop::isLegal`
(finiteness check), `cos`, `sin`, `atan2`, `sqrt`,
`fop::unifyAngleRange` and the constant `M_PI` — all defined outside
`src/` (libm / `math_utils.h`), so they enter as parameters and every
theorem holds for all instantiations. -/
structure MathOracle where
  legal : ℚ → Bool
  cosQ : ℚ → ℚ
  sinQ : ℚ → ℚ
  atan2Q : ℚ → ℚ → ℚ
  sqrtQ : ℚ → ℚ
  unifyQ : ℚ → ℚ
  piQ : ℚ

/-- First loop of `convertToGlobalFrame`: for each tick `j` of `traj.s`,
lift `(s[j], d[j])` to global coordinates through the reference spline
samplers `posX`, `posY`, `yawRef`; on the first non-finite coordinate
(`!isLegal`) the loop breaks, truncating the trajectory there.  The read
`traj.d[j]` is `operator[]`, modelled with `get?`. -/
def convertLoop1 (o : MathOracle) (posX posY yawRef : ℚ → ℚ) (traj_d : List ℚ) :
    List ℚ → ℕ → Option (List ℚ × List ℚ)
  | [], _ => some ([], [])
  | sj :: rest, j => do
    let dj ← traj_d.get? j
    let iyaw := yawRef sj
    let fx := posX sj + dj * o.cosQ (iyaw + o.piQ / 2)
    let fy := posY sj + dj * o.sinQ (iyaw + o.piQ / 2)
    if !(o.legal fx) || !(o.legal fy) then
      some ([], [])
    else do
      let (xs, ys) ← convertLoop1 o posX posY yawRef traj_d rest (j + 1)
      some (fx :: xs, fy :: ys)

/-- `FrenetOptimalTrajectoryPlanner::convertToGlobalFrame`: global
positions (possibly truncated), then yaw and ds from forward
differences with the last value replicated
(`traj.yaw.emplace_back(traj.yaw.back())`), then curvature
`c[j] = unifyAngleRange(yaw[j+1] - yaw[j]) / ds[j]`.  `.back()` on an
empty vector — which the source executes whenever at most one global
position was produced — is undefined behaviour, modelled as `none`. -/
def convertToGlobalFrame (o : MathOracle) (posX posY yawRef : ℚ → ℚ)
    (traj : FrenetPath) : Option FrenetPath := do
  let (xs, ys) ← convertLoop1 o posX posY yawRef traj.d traj.s 0
  let diffs := (xs.zip xs.tail).zip (ys.zip ys.tail)
  let yaw0 := diffs.map fun p => o.atan2Q (p.2.2 - p.2.1) (p.1.2 - p.1.1)
  let ds0 := diffs.map fun p => o.sqrtQ ((p.1.2 - p.1.1) * (p.1.2 - p.1.1) + (p.2.2 - p.2.1) * (p.2.2 - p.2.1))
  let yawLast ← yaw0.getLast?
  let dsLast ← ds0.getLast?
  let yaw := yaw0 ++ [yawLast]
  let ds := ds0 ++ [dsLast]
  let c := ((yaw.zip yaw.tail).zip ds).map fun p => o.unifyQ (p.1.2 - p.1.1) / p.2
  some { traj with x := xs, y := ys, yaw := yaw, ds := ds, c := c }

/-- Cubic spline coefficient store (`fop::Spline`): knots `x_` and
per-segment coefficients `a_, b_, c_, d_`. -/
structure SplineData where
  x_ : List ℚ
  a_ : List ℚ
  b_ : List ℚ
  c_ : List ℚ
  d_ : List ℚ
  deriving Repr, DecidableEq

/-- The scan of `Spline::searchIndex`: remember the last index whose
knot is ≤ the query (the tolerance comparator
`cmp_doubles_greater_or_equal` lives outside `src/`; on exact values it
is `≥`, which is how it is modelled). -/
def siGo (t : ℚ) : List ℚ → ℕ → ℕ → ℕ
  | [], _, idx => idx
  | a :: l, i, idx => siGo t l (i + 1) (if t ≥ a then i else idx)

/-- `Spline::searchIndex`. -/
def searchIndex (xs : List ℚ) (t : ℚ) : ℕ := siGo t xs 0 0

/-- `Spline::calculatePoint`: 0 outside `[x_.front(), x_.back()]`,
otherwise the cubic of the segment found by `searchIndex`.  The `.at`
accesses are modelled with `get?`: at the last knot `searchIndex`
returns `n-1` and `b_.at(n-1)` is past the end of the `n-1`-element
coefficient vector (`std::out_of_range`), giving `none`. -/
def calculatePoint (sp : SplineData) (t : ℚ) : Option ℚ :=
  match sp.x_.get? 0, sp.x_.getLast? with
  | some x0, some xl =>
    if t < x0 then some 0
    else if t > xl then some 0
    else
      match sp.x_.get? (searchIndex sp.x_ t), sp.a_.get? (searchIndex sp.x_ t),
          sp.b_.get? (searchIndex sp.x_ t), sp.c_.get? (searchIndex sp.x_ t),
          sp.d_.get? (searchIndex sp.x_ t) with
      | some xi, some a, some b, some c, some d =>
        some (a + b * (t - xi) + c * (t - xi) * (t - xi) + d * (t - xi) * (t - xi) * (t - xi))
      | _, _, _, _, _ => none
  | _, _ => none

/-- The tridiagonal matrix `A` of `Spline::calculateMatrixA`, hard-coded
in the source for `num_x_ == 5`. -/
def matrixA5 (h : Fin 4 → ℚ) : Matrix (Fin 5) (Fin 5) ℚ :=
  !![1, 0, 0, 0, 0;
     h 0, 2 * (h 0 + h 1), h 1, 0, 0;
     0, h 1, 2 * (h 1 + h 2), h 2, 0;
     0, 0, h 2, 2 * (h 2 + h 3), h 3;
     0, 0, 0, 0, 1]

/-- The right-hand side `B` of `Spline::calculateMatrixB` for
`num_x_ == 5` (with `a_ = y`). -/
def vecB5 (h : Fin 4 → ℚ) (y : Fin 5 → ℚ) : Fin 5 → ℚ :=
  ![0,
    3 * (y 2 - y 1) / h 1 - 3 * (y 1 - y 0) / h 0,
    3 * (y 3 - y 2) / h 2 - 3 * (y 2 - y 1) / h 1,
    3 * (y 4 - y 3) / h 3 - 3 * (y 3 - y 2) / h 2,
    0]

/-- The `Spline::Spline` constructor for five knots, the only width the
source's dense matrices support (for `num_x_ ≠ 5` the Eigen matrices
stay uninitialized, which has no determinate model).  Eigen's
`A.inverse()` is written as `det⁻¹ • adjugate`, which is exactly the
inverse whenever `A` is invertible; for two identical consecutive knots
the segment width is zero and the C++ divides by zero (`inf`/`NaN`),
mirrored here only up to `ℚ`'s `q/0 = 0` convention — no theorem below
evaluates coefficients in that case. -/
def mkSpline5 (x y : Fin 5 → ℚ) : SplineData :=
  let h : Fin 4 → ℚ := fun i => x i.succ - x i.castSucc
  let cvec : Fin 5 → ℚ := ((matrixA5 h).det⁻¹ • (matrixA5 h).adjugate).mulVec (vecB5 h y)
  let bc : Fin 4 → ℚ := fun i =>
    (y i.succ - y i.castSucc) / h i - h i * (cvec i.succ + 2 * cvec i.castSucc) / 3
  let dc : Fin 4 → ℚ := fun i => (cvec i.succ - cvec i.castSucc) / (3 * h i)
  { x_ := [x 0, x 1, x 2, x 3, x 4]
    a_ := [y 0, y 1, y 2, y 3, y 4]
    b_ := [bc 0, bc 1, bc 2, bc 3]
    c_ := [cvec 0, cvec 1, cvec 2, cvec 3, cvec 4]
    d_ := [dc 0, dc 1, dc 2, dc 3] }

/-- 2D reference spline (`fop::Spline2D`): cumulative arc length plus
one 1D spline per coordinate. -/
structure Spline2D where
  s_ : List ℚ
  sx_ : SplineData
  sy_ : SplineData
  deriving Repr, DecidableEq

/-- `Spline2D::calculate_s` for five waypoints: `s_0 = 0`,
`s_{i+1} = s_i + sqrt(dx_i^2 + dy_i^2)` (with the external `sqrt`
abstracted). -/
def calculateS5 (sqrtQ : ℚ → ℚ) (wx wy : Fin 5 → ℚ) : Fin 5 → ℚ :=
  let seg : Fin 4 → ℚ := fun i =>
    sqrtQ ((wx i.succ - wx i.castSucc) * (wx i.succ - wx i.castSucc) +
      (wy i.succ - wy i.castSucc) * (wy i.succ - wy i.castSucc))
  ![0, seg 0, seg 0 + seg 1, seg 0 + seg 1 + seg 2, seg 0 + seg 1 + seg 2 + seg 3]

/-- `Spline2D::Spline2D` for five waypoints: arc lengths, then the two
coordinate splines over them.  No validation of any kind is performed —
duplicate or non-monotone waypoints flow straight into the spline
solve. -/
def mkSpline2D5 (sqrtQ : ℚ → ℚ) (wx wy : Fin 5 → ℚ) : Spline2D :=
  let s := calculateS5 sqrtQ wx wy
  { s_ := [s 0, s 1, s 2, s 3, s 4]
    sx_ := mkSpline5 s wx
    sy_ := mkSpline5 s wy }

/-- Observable trace of the opening stages of a
`frenetOptimalPlanning` call: the reference spline handed in by the
caller (`generateReferenceCurve`), the sampling grid and seed index of
`sampleEndStates`, and the end-state count the source records as
`numbers[1] = trajs_3d.size()*trajs_3d[0].size()*trajs_3d[0][0].size()`. -/
structure PlanTrace where
  spline : Spline2D
  grid : List (List (List FrenetPath))
  seed : Option (ℕ × ℕ × ℕ)
  endStatesNumber : ℕ
  deriving Repr, DecidableEq

/-- The recorded end-state count of a grid:
`trajs_3d.size() * trajs_3d[0].size() * trajs_3d[0][0].size()` (the
`[0]` accesses on an empty level are modelled by `getD _ []`). -/
def planEndStatesNumber (grid : List (List (List FrenetPath))) : ℕ :=
  grid.length * (grid.getD 0 []).length * ((grid.getD 0 []).getD 0 []).length

/-- The stages of a planning call up to and including grid sampling,
exactly as `frenetOptimalPlanning` runs them: spline construction (in
the caller), then — with no validation of waypoints, horizon or grid
sizes anywhere on the path — `sampleEndStates` builds the full grid. -/
def frenetOptimalPlanningTrace (sqrtQ : ℚ → ℚ) (cfg : Setting) (wx wy : Fin 5 → ℚ)
    (lane_id : ℤ) (left_width right_width current_speed start_d : ℚ) : PlanTrace :=
  let spl := mkSpline2D5 sqrtQ wx wy
  let gridSeed := sampleEndStates cfg lane_id left_width right_width current_speed start_d
  { spline := spl
    grid := gridSeed.1
    seed := gridSeed.2
    endStatesNumber := planEndStatesNumber gridSeed.1 }

/-- The invalid-input case of claim C6 realised in scenario S6: two
consecutive identical waypoints (a non-monotone waypoint list). -/
def specInvalidWaypoints5 (wx wy : Fin 5 → ℚ) : Prop :=
  ∃ i : Fin 4, wx i.castSucc = wx i.succ ∧ wy i.castSucc = wy i.succ

instance (wx wy : Fin 5 → ℚ) : Decidable (specInvalidWaypoints5 wx wy) := by
  unfold specInvalidWaypoints5; infer_instance

/-- Claim C6 as stated: on invalid input (here: non-monotone waypoints)
the planner fails fast with a classified error, before any grid work —
in particular no end states are generated. -/
def C6ClaimProp : Prop :=
  ∀ (sqrtQ : ℚ → ℚ) (cfg : Setting) (wx wy : Fin 5 → ℚ) (lane_id : ℤ)
    (left_width right_width current_speed start_d : ℚ),
    specInvalidWaypoints5 wx wy →
    (frenetOptimalPlanningTrace sqrtQ cfg wx wy lane_id left_width right_width
      current_speed start_d).endStatesNumber = 0

/-- Modelled from the spec: the candidate priority queue
`candidate_trajs_` is declared in the planner header, which is not
under `src/`; per spec section 3 (Candidate queue) it is a
`std::priority_queue` acting as a min-heap ordered by `final_cost`, so
its `top`/`pop` pair is modelled as removing one minimal-`final_cost`
element from the queue contents. -/
def popMin : List FrenetPath → Option (FrenetPath × List FrenetPath)
  | [] => none
  | a :: l =>
    match popMin l with
    | none => some (a, [])
    | some (b, l') => if b.final_cost < a.final_cost then some (b, a :: l') else some (a, l)

/-- The validation loop of `frenetOptimalPlanning`
(`while (!best_traj_found && !candidate_trajs_.empty())`): pop the
cheapest candidate, run it through conversion/constraint/collision
checking (abstracted as `pred`), stop at the first success.  Returns the
candidates in the order they were popped. -/
def poppedSeq (pred : FrenetPath → Bool) : ℕ → List FrenetPath → List FrenetPath
  | 0, _ => []
  | fuel + 1, q =>
    match popMin q with
    | none => []
    | some (c, q') => c :: (if pred c then [] else poppedSeq pred fuel q')

/-! ## Theorems -/

/-- The constraint scan from index `i` with `fuel` indices left accepts
iff every index in its window satisfies the code's per-tick condition. -/
theorem checkConstraintsAux_true_iff (cfg : Setting) (traj : FrenetPath) :
    ∀ fuel i, checkConstraintsAux cfg traj fuel i = true ↔
      ∀ j, i ≤ j → j < i + fuel → codeTickOk cfg traj j := by
  intro fuel
  induction fuel with
  | zero =>
    intro i
    constructor
    · intro _ j h1 h2
      exact absurd h2 (by omega)
    · intro _
      rfl
  | succ n ih =>
    intro i
    rw [checkConstraintsAux]
    split_ifs with h1 h2 h3 h4
    · constructor
      · intro h
        exact absurd h (by simp)
      · intro hall
        obtain ⟨ha, hb, -⟩ := hall i le_rfl (by omega)
        simp only [Bool.or_eq_true, Bool.not_eq_true'] at h1
        rcases h1 with h | h
        · rw [ha] at h
          exact Bool.noConfusion h
        · rw [hb] at h
          exact Bool.noConfusion h
    · constructor
      · intro h
        exact absurd h (by simp)
      · intro hall
        obtain ⟨-, -, hsd, -⟩ := hall i le_rfl (by omega)
        exact absurd h2 (not_lt.mpr hsd)
    · constructor
      · intro h
        exact absurd h (by simp)
      · intro hall
        obtain ⟨-, -, -, hd1, hd2, -⟩ := hall i le_rfl (by omega)
        simp only [Bool.or_eq_true, decide_eq_true_eq] at h3
        rcases h3 with h | h
        · exact absurd h (not_lt.mpr hd2)
        · exact absurd h (not_lt.mpr hd1)
    · constructor
      · intro h
        exact absurd h (by simp)
      · intro hall
        obtain ⟨-, -, -, -, -, hc⟩ := hall i le_rfl (by omega)
        exact absurd h4 (not_lt.mpr hc)
    · rw [ih (i + 1)]
      constructor
      · intro hrec j hij hlt
        rcases eq_or_lt_of_le hij with heq | hlt2
        · rw [← heq]
          simp only [Bool.or_eq_true, Bool.not_eq_true', not_or] at h1
          simp only [Bool.or_eq_true, decide_eq_true_eq, not_or] at h3
          refine ⟨?_, ?_, not_lt.mp h2, not_lt.mp h3.2, not_lt.mp h3.1, not_lt.mp h4⟩
          · rcases Bool.eq_false_or_eq_true (isnormalQ (traj.x.getD i 0)) with h | h
            · exact h
            · exact absurd h h1.1
          · rcases Bool.eq_false_or_eq_true (isnormalQ (traj.y.getD i 0)) with h | h
            · exact h
            · exact absurd h h1.2
        · exact hrec j (by omega) (by omega)
      · intro hall j hij hlt
        exact hall j (by omega) (by omega)

/-- C1 (amended): `checkConstraints` returns true iff every index
`i < |c|` satisfies the code's condition — `std::isnormal` on both
coordinates (which rejects an exact zero, unlike the spec's
`isfinite`), `s_d ≤ max_speed`, `max_decel ≤ s_dd ≤ max_accel` and
`|curvature| ≤ max_curvature` — and the verdict is stored in
`constraint_passed`. -/
theorem C1_checkConstraints_amended (cfg : Setting) (traj : FrenetPath) :
    ((checkConstraints cfg traj).1 = true ↔
      ∀ i < traj.c.length, codeTickOk cfg traj i) ∧
    (checkConstraints cfg traj).2.constraint_passed = (checkConstraints cfg traj).1 := by
  refine ⟨?_, rfl⟩
  have h := checkConstraintsAux_true_iff cfg traj traj.c.length 0
  constructor
  · intro hp i hi
    exact (h.mp hp) i (by omega) (by omega)
  · intro hall
    exact h.mpr fun j h1 h2 => hall j (by omega)

/-- Concrete limits for the C1 counterexample. -/
def C1cfg : Setting :=
  { predCfg with max_speed := 1, max_accel := 1, max_decel := -1, max_curvature := 1 }

/-- A two-tick trajectory passing exactly through `x = 0`: finite
everywhere and within every kinematic bound, yet `std::isnormal(0.0)`
is false, so the code rejects it. -/
def C1traj : FrenetPath :=
  { x := [0, 0], y := [1, 1], s_d := [0, 0], s_dd := [0, 0], c := [0] }

/-- C1 counterexample: the claim's iff fails on `C1traj` — every tick
is finite and within bounds, but `checkConstraints` returns false
because of `std::isnormal` on the zero x-coordinate. -/
theorem C1_counterexample : ¬ C1ClaimAt C1cfg C1traj :=
  of_decide_eq_true (by with_unfolding_all rfl)

/-- C2: the predictor evaluated at a concrete obstacle
(`max_t = 1`, `tick_t = 1/2`, so `steps = 2` and the spec expects all
four arrays to have 3 samples): the misdirected
`obstacle_traj.x.push_back(obstacle_traj.y.back() + ...)` makes `x`
grow twice per step while `y` never grows. -/
theorem C2_code_bug_lengths :
    ¬ C2SpecLengthsAt predCfg predObstacle ∧
    (predictOne predCfg predObstacle).x.length = 5 ∧
    (predictOne predCfg predObstacle).y.length = 1 ∧
    (predictOne predCfg predObstacle).yaw.length = 3 ∧
    (predictOne predCfg predObstacle).v.length = 3 :=
  of_decide_eq_true (by with_unfolding_all rfl)

/-- An ego trajectory with three Cartesian samples, the number the
ego/obstacle tick sharing of claim C5 expects to be safe. -/
def C5ego : FrenetPath := { x := [0, 0, 0] }

/-- C5: with the predicted trajectories the code actually builds, the
reads of `checkTrajCollision` go out of bounds — the obstacle `y` array
holds a single element while the loop reads index `j = 1, 2`. -/
theorem C5_collision_reads_out_of_bounds :
    ¬ collisionReadsInBounds C5ego (predictTrajectories predCfg [predObstacle]) :=
  of_decide_eq_true (by with_unfolding_all rfl)

/-- Trivial instantiation of the external math routines. -/
def oracle0 : MathOracle :=
  ⟨fun _ => true, fun _ => 0, fun _ => 0, fun _ _ => 0, fun _ => 0, fun _ => 0, 0⟩

/-- A candidate with exactly one Frenet sample (e.g. `end_state.T`
smaller than one tick), hence one Cartesian sample after conversion. -/
def C10trajOne : FrenetPath := { s := [0], d := [0] }

/-- A candidate with no samples at all. -/
def C10trajZero : FrenetPath := {}

/-- C10: on a candidate whose conversion produces one or zero Cartesian
samples, `convertToGlobalFrame` performs an out-of-range access
(`traj.yaw.back()` on an empty vector), modelled by `none` — for any
reference-spline samplers. -/
theorem C10_convert_out_of_range :
    convertToGlobalFrame oracle0 (fun _ => 0) (fun _ => 0) (fun _ => 0) C10trajOne = none ∧
    convertToGlobalFrame oracle0 (fun _ => 0) (fun _ => 0) (fun _ => 0) C10trajZero = none :=
  of_decide_eq_true (by with_unfolding_all rfl)

/-- A squared-jerk accumulator is a sum of squares, hence nonnegative. -/
theorem jerkSum_nonneg (f : ℚ → ℚ) (T tick : ℚ) : 0 ≤ jerkSum f T tick := by
  unfold jerkSum
  apply List.sum_nonneg
  intro a ha
  simp only [List.mem_map] at ha
  obtain ⟨t, -, rfl⟩ := ha
  positivity

/-- C9: every candidate materialized by `getTrajAndRealCost` has
`final_cost = fix_cost + dyn_cost` with
`dyn_cost = k_jerk * (k_lon * Σ s_ddd² + k_lat * Σ d_ddd²)`, and — for
nonnegative weights — `final_cost ≥ fix_cost`; this holds for every
instantiation of the (externally defined) polynomial evaluators. -/
theorem C9_final_cost (cfg : Setting) (quintic quartic : FrenetState → FrenetState → PolyEval)
    (start : FrenetState) (cell : FrenetPath)
    (hj : 0 ≤ cfg.k_jerk) (hlon : 0 ≤ cfg.k_lon) (hlat : 0 ≤ cfg.k_lat) :
    (materialize cfg quintic quartic start cell).final_cost =
      (materialize cfg quintic quartic start cell).fix_cost +
        (materialize cfg quintic quartic start cell).dyn_cost ∧
    (materialize cfg quintic quartic start cell).fix_cost ≤
      (materialize cfg quintic quartic start cell).final_cost := by
  constructor
  · rfl
  · show cell.fix_cost ≤ cell.fix_cost + dynCostOf cfg _ _
    refine le_add_of_nonneg_right ?_
    unfold dynCostOf
    have h1 := jerkSum_nonneg ((quartic start cell.end_state).d3) cell.end_state.T cfg.tick_t
    have h2 := jerkSum_nonneg ((quintic start cell.end_state).d3) cell.end_state.T cfg.tick_t
    exact mul_nonneg hj (add_nonneg (mul_nonneg hlon h1) (mul_nonneg hlat h2))

/-- Identity polynomial evaluators, for the C9 witness. -/
def polyId : FrenetState → FrenetState → PolyEval :=
  fun _ _ => ⟨fun t => t, fun t => t, fun t => t, fun t => t⟩

/-- A concrete start state. -/
def startState0 : FrenetState := ⟨0, 0, 0, 0, 0, 0, 0⟩

/-- C9 witness: the hypotheses hold and the theorem applies at a
concrete configuration, evaluators and cell. -/
theorem C9_final_cost_witness :
    ((0 : ℚ) ≤ C1cfg.k_jerk ∧ (0 : ℚ) ≤ C1cfg.k_lon ∧ (0 : ℚ) ≤ C1cfg.k_lat) ∧
    ((materialize C1cfg polyId polyId startState0 C1traj).final_cost =
      (materialize C1cfg polyId polyId startState0 C1traj).fix_cost +
        (materialize C1cfg polyId polyId startState0 C1traj).dyn_cost ∧
    (materialize C1cfg polyId polyId startState0 C1traj).fix_cost ≤
      (materialize C1cfg polyId polyId startState0 C1traj).final_cost) :=
  ⟨⟨of_decide_eq_true (by with_unfolding_all rfl), of_decide_eq_true (by with_unfolding_all rfl),
      of_decide_eq_true (by with_unfolding_all rfl)⟩,
    C9_final_cost C1cfg polyId polyId startState0 C1traj
      (of_decide_eq_true (by with_unfolding_all rfl))
      (of_decide_eq_true (by with_unfolding_all rfl))
      (of_decide_eq_true (by with_unfolding_all rfl))⟩

/-- `popMin` returns `none` only on the empty queue. -/
theorem popMin_none {l : List FrenetPath} (h : popMin l = none) : l = [] := by
  cases l with
  | nil => rfl
  | cons a t =>
    cases hp : popMin t with
    | none =>
      simp only [popMin, hp] at h
      exact Option.noConfusion h
    | some bl =>
      obtain ⟨b, l2⟩ := bl
      simp only [popMin, hp] at h
      by_cases hlt : b.final_cost < a.final_cost
      · rw [if_pos hlt] at h
        exact Option.noConfusion h
      · rw [if_neg hlt] at h
        exact Option.noConfusion h

/-- The element `popMin` extracts has minimal `final_cost` in the queue. -/
theorem popMin_le_all :
    ∀ {l : List FrenetPath} {c : FrenetPath} {l' : List FrenetPath},
      popMin l = some (c, l') → ∀ m ∈ l, c.final_cost ≤ m.final_cost := by
  intro l
  induction l with
  | nil => intro c l' h; exact Option.noConfusion h
  | cons a t ih =>
    intro c l' h
    cases hp : popMin t with
    | none =>
      simp only [popMin, hp, Option.some.injEq, Prod.mk.injEq] at h
      obtain ⟨rfl, rfl⟩ := h
      intro m hm
      rcases List.mem_cons.mp hm with rfl | hm
      · exact le_refl _
      · rw [popMin_none hp] at hm
        exact absurd hm (List.not_mem_nil m)
    | some bl =>
      obtain ⟨b, l2⟩ := bl
      simp only [popMin, hp] at h
      by_cases hlt : b.final_cost < a.final_cost
      · rw [if_pos hlt] at h
        simp only [Option.some.injEq, Prod.mk.injEq] at h
        obtain ⟨rfl, rfl⟩ := h
        intro m hm
        rcases List.mem_cons.mp hm with rfl | hm
        · exact le_of_lt hlt
        · exact ih hp m hm
      · rw [if_neg hlt] at h
        simp only [Option.some.injEq, Prod.mk.injEq] at h
        obtain ⟨rfl, rfl⟩ := h
        intro m hm
        rcases List.mem_cons.mp hm with rfl | hm
        · exact le_refl _
        · exact (not_lt.mp hlt).trans (ih hp m hm)

/-- The popped element was in the queue. -/
theorem popMin_mem_self :
    ∀ {l : List FrenetPath} {c : FrenetPath} {l' : List FrenetPath},
      popMin l = some (c, l') → c ∈ l := by
  intro l
  induction l with
  | nil => intro c l' h; exact Option.noConfusion h
  | cons a t ih =>
    intro c l' h
    cases hp : popMin t with
    | none =>
      simp only [popMin, hp, Option.some.injEq, Prod.mk.injEq] at h
      obtain ⟨rfl, rfl⟩ := h
      exact List.mem_cons_self a t
    | some bl =>
      obtain ⟨b, l2⟩ := bl
      simp only [popMin, hp] at h
      by_cases hlt : b.final_cost < a.final_cost
      · rw [if_pos hlt] at h
        simp only [Option.some.injEq, Prod.mk.injEq] at h
        obtain ⟨rfl, rfl⟩ := h
        exact List.mem_cons_of_mem a (ih hp)
      · rw [if_neg hlt] at h
        simp only [Option.some.injEq, Prod.mk.injEq] at h
        obtain ⟨rfl, rfl⟩ := h
        exact List.mem_cons_self a t

/-- The rest of the queue after a pop is a sub-collection of the queue. -/
theorem popMin_rest_mem :
    ∀ {l : List FrenetPath} {c : FrenetPath} {l' : List FrenetPath},
      popMin l = some (c, l') → ∀ m ∈ l', m ∈ l := by
  intro l
  induction l with
  | nil => intro c l' h; exact Option.noConfusion h
  | cons a t ih =>
    intro c l' h
    cases hp : popMin t with
    | none =>
      simp only [popMin, hp, Option.some.injEq, Prod.mk.injEq] at h
      obtain ⟨rfl, rfl⟩ := h
      intro m hm
      exact absurd hm (List.not_mem_nil m)
    | some bl =>
      obtain ⟨b, l2⟩ := bl
      simp only [popMin, hp] at h
      by_cases hlt : b.final_cost < a.final_cost
      · rw [if_pos hlt] at h
        simp only [Option.some.injEq, Prod.mk.injEq] at h
        obtain ⟨rfl, rfl⟩ := h
        intro m hm
        rcases List.mem_cons.mp hm with rfl | hm
        · exact List.mem_cons_self m t
        · exact List.mem_cons_of_mem a (ih hp m hm)
      · rw [if_neg hlt] at h
        simp only [Option.some.injEq, Prod.mk.injEq] at h
        obtain ⟨rfl, rfl⟩ := h
        intro m hm
        exact List.mem_cons_of_mem a hm

/-- Every candidate the validation loop pops was in the queue. -/
theorem poppedSeq_mem (pred : FrenetPath → Bool) :
    ∀ (fuel : ℕ) (l : List FrenetPath) (a : FrenetPath),
      a ∈ poppedSeq pred fuel l → a ∈ l := by
  intro fuel
  induction fuel with
  | zero => intro l a h; exact absurd h (List.not_mem_nil a)
  | succ n ih =>
    intro l a h
    cases hp : popMin l with
    | none =>
      simp only [poppedSeq, hp] at h
      exact absurd h (List.not_mem_nil a)
    | some cl =>
      obtain ⟨c, q'⟩ := cl
      simp only [poppedSeq, hp] at h
      rcases List.mem_cons.mp h with rfl | hm
      · exact popMin_mem_self hp
      · by_cases hpred : pred c
        · rw [if_pos hpred] at hm
          exact absurd hm (List.not_mem_nil a)
        · rw [if_neg hpred] at hm
          exact popMin_rest_mem hp a (ih q' a hm)

/-- C4: the candidates popped by the validation loop come out in
nondecreasing `final_cost` order — in particular the first pop is
minimal among all pops so far — for every queue contents, validation
outcome predicate and loop length. -/
theorem C4_popped_nondecreasing (pred : FrenetPath → Bool) (fuel : ℕ) (q : List FrenetPath) :
    List.Pairwise (fun a b => a.final_cost ≤ b.final_cost) (poppedSeq pred fuel q) := by
  induction fuel generalizing q with
  | zero => exact List.Pairwise.nil
  | succ n ih =>
    cases hp : popMin q with
    | none =>
      simp only [poppedSeq, hp]
      exact List.Pairwise.nil
    | some cl =>
      obtain ⟨c, q'⟩ := cl
      simp only [poppedSeq, hp]
      by_cases hpred : pred c
      · rw [if_pos hpred]
        exact List.pairwise_singleton _ c
      · rw [if_neg hpred]
        refine List.pairwise_cons.mpr ⟨?_, ih q'⟩
        intro a ha
        exact popMin_le_all hp a (popMin_rest_mem hp a (poppedSeq_mem pred n q' a ha))

/-- Head of a nonempty mapped range. -/
theorem getD_zero_map_range {α : Type} (f : ℕ → α) (n : ℕ) (d : α) (hn : 0 < n) :
    ((List.range n).map f).getD 0 d = f 0 := by
  cases n with
  | zero => omega
  | succ m =>
    rw [List.range_succ_eq_map]
    rfl

/-- C6 (amended): the planner performs no input validation at all — for
every input, valid or not, the sampling stage unconditionally builds the
full `num_width * num_speed * num_t` grid of end states (and no
classified-error channel exists anywhere on the path). -/
theorem C6_no_validation_amended (sqrtQ : ℚ → ℚ) (cfg : Setting) (wx wy : Fin 5 → ℚ)
    (lane_id : ℤ) (lw rw cs sd : ℚ) :
    (frenetOptimalPlanningTrace sqrtQ cfg wx wy lane_id lw rw cs sd).endStatesNumber =
      cfg.num_width * cfg.num_speed * cfg.num_t := by
  simp only [frenetOptimalPlanningTrace, planEndStatesNumber, sampleEndStates,
    List.length_map, List.length_range]
  rcases Nat.eq_zero_or_pos cfg.num_width with hw | hw
  · simp [hw]
  · rw [getD_zero_map_range _ _ _ hw]
    rcases Nat.eq_zero_or_pos cfg.num_speed with hv | hv
    · simp [hv]
    · rw [getD_zero_map_range _ _ _ hv]
      simp

/-- Grid configuration for the C6 counterexample: a 3x3x3 grid. -/
def C6cfg : Setting := { predCfg with num_width := 3, num_speed := 3, num_t := 3 }

/-- Invalid waypoint abscissae: the second and third points coincide. -/
def C6wx : Fin 5 → ℚ := ![0, 1, 1, 2, 3]

/-- Invalid waypoint ordinates: constant, so points 1 and 2 are
identical. -/
def C6wy : Fin 5 → ℚ := ![0, 0, 0, 0, 0]

/-- C6 counterexample: claim C6 is false — on the non-monotone
waypoint input (two identical consecutive points) the planning call
does not fail before grid work; it builds all 27 end states of the
3x3x3 grid and no error is raised. -/
theorem C6_counterexample : ¬ C6ClaimProp := by
  intro h
  have h2 := h (fun q => q) C6cfg C6wx C6wy 0 1 (-1) 0 0
    (of_decide_eq_true (by with_unfolding_all rfl))
  exact absurd h2 (of_decide_eq_true (by with_unfolding_all rfl))

/-- The running minimum never exceeds its initial value. -/
theorem runMin_fst_le_init {α : Type} (f : α → ℚ) :
    ∀ (l : List α) (s : ℚ × Option α), (runMin f l s).1 ≤ s.1 := by
  intro l
  induction l with
  | nil => intro s; exact le_refl _
  | cons a t ih =>
    intro s
    obtain ⟨m, o⟩ := s
    rw [runMin]
    by_cases h : f a < m
    · rw [if_pos h]
      exact (ih _).trans (le_of_lt h)
    · rw [if_neg h]
      exact ih _

/-- The running minimum is below every scanned value. -/
theorem runMin_fst_le_mem {α : Type} (f : α → ℚ) :
    ∀ (l : List α) (s : ℚ × Option α), ∀ a ∈ l, (runMin f l s).1 ≤ f a := by
  intro l
  induction l with
  | nil => intro s a ha; exact absurd ha (List.not_mem_nil a)
  | cons b t ih =>
    intro s a ha
    obtain ⟨m, o⟩ := s
    rw [runMin]
    rcases List.mem_cons.mp ha with rfl | ha
    · by_cases h : f a < m
      · rw [if_pos h]
        exact runMin_fst_le_init f t _
      · rw [if_neg h]
        exact (runMin_fst_le_init f t _).trans (not_lt.mp h)
    · by_cases h : f b < m
      · rw [if_pos h]
        exact ih _ a ha
      · rw [if_neg h]
        exact ih _ a ha

/-- If the scan tracks the invariant that the recorded index achieves
the recorded minimum, the final index achieves the final minimum. -/
theorem runMin_achieves {α : Type} (f : α → ℚ) :
    ∀ (l : List α) (s : ℚ × Option α), (∀ c, s.2 = some c → f c = s.1) →
      ∀ c, (runMin f l s).2 = some c → f c = (runMin f l s).1 := by
  intro l
  induction l with
  | nil => intro s hs c h; exact hs c h
  | cons a t ih =>
    intro s hs c h
    obtain ⟨m, o⟩ := s
    rw [runMin] at h ⊢
    by_cases hlt : f a < m
    · rw [if_pos hlt] at h ⊢
      refine ih _ ?_ c h
      intro c' hc'
      simp only [Option.some.injEq] at hc'
      rw [← hc']
    · rw [if_neg hlt] at h ⊢
      exact ih _ hs c h

/-- If the scan ends with no recorded index, it started with none, the
minimum never moved, and no scanned value beat it. -/
theorem runMin_none_info {α : Type} (f : α → ℚ) :
    ∀ (l : List α) (s : ℚ × Option α), (runMin f l s).2 = none →
      s.2 = none ∧ (runMin f l s).1 = s.1 ∧ ∀ a ∈ l, ¬ f a < s.1 := by
  intro l
  induction l with
  | nil =>
    intro s h
    exact ⟨h, rfl, by simp⟩
  | cons a t ih =>
    intro s h
    obtain ⟨m, o⟩ := s
    rw [runMin] at h
    by_cases hlt : f a < m
    · rw [if_pos hlt] at h
      have h2 := (ih _ h).1
      exact absurd h2 (by simp)
    · rw [if_neg hlt] at h
      obtain ⟨h1, h2, h3⟩ := ih _ h
      refine ⟨h1, ?_, ?_⟩
      · rw [runMin, if_neg hlt]
        exact h2
      · intro b hb
        rcases List.mem_cons.mp hb with rfl | hb
        · exact hlt
        · exact h3 b hb

/-- A recorded index was the initial one or a scanned element. -/
theorem runMin_mem {α : Type} (f : α → ℚ) :
    ∀ (l : List α) (s : ℚ × Option α) (c : α),
      (runMin f l s).2 = some c → s.2 = some c ∨ c ∈ l := by
  intro l
  induction l with
  | nil => intro s c h; exact Or.inl h
  | cons a t ih =>
    intro s c h
    obtain ⟨m, o⟩ := s
    rw [runMin] at h
    by_cases hlt : f a < m
    · rw [if_pos hlt] at h
      rcases ih _ c h with h2 | h2
      · simp only [Option.some.injEq] at h2
        exact Or.inr (h2 ▸ List.mem_cons_self a t)
      · exact Or.inr (List.mem_cons_of_mem a h2)
    · rw [if_neg hlt] at h
      rcases ih _ c h with h2 | h2
      · exact Or.inl h2
      · exact Or.inr (List.mem_cons_of_mem a h2)

/-- Membership in the row-major grid enumeration is exactly being in
bounds on all three axes. -/
theorem mem_enum3 {nw nv nt : ℕ} {t : ℕ × ℕ × ℕ} :
    t ∈ enum3 nw nv nt ↔ t.1 < nw ∧ t.2.1 < nv ∧ t.2.2 < nt := by
  obtain ⟨i, j, k⟩ := t
  simp only [enum3, List.mem_flatMap, List.mem_map, List.mem_range]
  constructor
  · rintro ⟨i', hi', j', hj', k', hk', heq⟩
    cases heq
    exact ⟨hi', hj', hk'⟩
  · rintro ⟨hi, hj, hk⟩
    exact ⟨i, hi, j, hj, k, hk, rfl⟩

/-- C8: whenever some cell's estimated cost is below
`std::numeric_limits<double>::max()` (so that the uninitialized-index
case cannot occur), `sampleEndStates` returns an in-grid index that is
an argmin of `fix_cost + hur_cost` over the whole grid. -/
theorem C8_sampleEndStates_argmin (cfg : Setting) (lane_id : ℤ) (lb rb cs sd : ℚ)
    (i0 j0 k0 : ℕ)
    (h0 : i0 < cfg.num_width ∧ j0 < cfg.num_speed ∧ k0 < cfg.num_t ∧
      estCost cfg sd lb rb cs (i0, j0, k0) < dblMax) :
    ∃ c : ℕ × ℕ × ℕ,
      (sampleEndStates cfg lane_id lb rb cs sd).2 = some c ∧
      c.1 < cfg.num_width ∧ c.2.1 < cfg.num_speed ∧ c.2.2 < cfg.num_t ∧
      ∀ i j k, i < cfg.num_width → j < cfg.num_speed → k < cfg.num_t →
        estCost cfg sd lb rb cs c ≤ estCost cfg sd lb rb cs (i, j, k) := by
  obtain ⟨hi, hj, hk, hlt⟩ := h0
  have hmem : (i0, j0, k0) ∈ enum3 cfg.num_width cfg.num_speed cfg.num_t :=
    mem_enum3.mpr ⟨hi, hj, hk⟩
  have hres : (sampleEndStates cfg lane_id lb rb cs sd).2 =
      (runMin (estCost cfg sd lb rb cs)
        (enum3 cfg.num_width cfg.num_speed cfg.num_t) (dblMax, none)).2 := rfl
  cases hc : (runMin (estCost cfg sd lb rb cs)
      (enum3 cfg.num_width cfg.num_speed cfg.num_t) (dblMax, none)).2 with
  | none =>
    obtain ⟨-, -, h2⟩ := runMin_none_info _ _ _ hc
    exact absurd hlt (h2 _ hmem)
  | some c =>
    have hcmem : c ∈ enum3 cfg.num_width cfg.num_speed cfg.num_t := by
      rcases runMin_mem _ _ _ c hc with h2 | h2
      · exact absurd h2 (by simp)
      · exact h2
    have hbounds := mem_enum3.mp hcmem
    have hach := runMin_achieves (estCost cfg sd lb rb cs)
      (enum3 cfg.num_width cfg.num_speed cfg.num_t) (dblMax, none)
      (fun c' hc' => Option.noConfusion hc') c hc
    refine ⟨c, hres.trans hc, hbounds.1, hbounds.2.1, hbounds.2.2, ?_⟩
    intro i j k hi' hj' hk'
    rw [hach]
    exact runMin_fst_le_mem _ _ _ _ (mem_enum3.mpr ⟨hi', hj', hk'⟩)

/-- C8 witness: the hypothesis holds at a concrete 3x3x3 grid (cell
(0,0,0) has estimated cost 0 < DBL_MAX) and the theorem applies there. -/
theorem C8_sampleEndStates_argmin_witness :
    (0 < C6cfg.num_width ∧ 0 < C6cfg.num_speed ∧ 0 < C6cfg.num_t ∧
      estCost C6cfg 0 1 (-1) 0 (0, 0, 0) < dblMax) ∧
    (∃ c : ℕ × ℕ × ℕ,
      (sampleEndStates C6cfg 7 1 (-1) 0 0).2 = some c ∧
      c.1 < C6cfg.num_width ∧ c.2.1 < C6cfg.num_speed ∧ c.2.2 < C6cfg.num_t ∧
      ∀ i j k, i < C6cfg.num_width → j < C6cfg.num_speed → k < C6cfg.num_t →
        estCost C6cfg 0 1 (-1) 0 c ≤ estCost C6cfg 0 1 (-1) 0 (i, j, k)) :=
  ⟨of_decide_eq_true (by with_unfolding_all rfl),
    C8_sampleEndStates_argmin C6cfg 7 1 (-1) 0 0 0 0 0
      (of_decide_eq_true (by with_unfolding_all rfl))⟩

/-- Evaluation of `Spline::calculatePoint` at a query equal to the knot
selected by `searchIndex`: when all coefficient reads succeed, the
cubic collapses to its constant term `a_ i` because `dx = 0`. -/
theorem calculatePoint_eq_at_knot (sp : SplineData) (t a : ℚ) (i : ℕ)
    (hx0 : ∃ x0, sp.x_.get? 0 = some x0 ∧ ¬ t < x0)
    (hxl : ∃ xl, sp.x_.getLast? = some xl ∧ ¬ t > xl)
    (hsi : searchIndex sp.x_ t = i)
    (hxi : sp.x_.get? i = some t)
    (ha : sp.a_.get? i = some a)
    (hb : (sp.b_.get? i).isSome = true)
    (hc : (sp.c_.get? i).isSome = true)
    (hd : (sp.d_.get? i).isSome = true) :
    calculatePoint sp t = some a := by
  obtain ⟨x0, hx0e, hx0n⟩ := hx0
  obtain ⟨xl, hxle, hxln⟩ := hxl
  obtain ⟨b, hbe⟩ := Option.isSome_iff_exists.mp hb
  obtain ⟨c, hce⟩ := Option.isSome_iff_exists.mp hc
  obtain ⟨d, hde⟩ := Option.isSome_iff_exists.mp hd
  unfold calculatePoint
  rw [hx0e, hxle, hsi, hxi, ha, hbe, hce, hde]
  simp only [if_neg hx0n, if_neg hxln]
  rw [sub_self]
  congr 1
  ring

/-- The `searchIndex` scan over five knots, written as a nested
conditional: the last knot that the query clears wins. -/
theorem searchIndex5 (x0 x1 x2 x3 x4 t : ℚ) :
    searchIndex [x0, x1, x2, x3, x4] t =
      if t ≥ x4 then 4 else if t ≥ x3 then 3 else if t ≥ x2 then 2
        else if t ≥ x1 then 1 else if t ≥ x0 then 0 else 0 := by
  simp only [searchIndex, siGo]

/-- C7 (amended): for a five-knot spline (the only width the source's
hard-coded matrices support) over strictly increasing knots,
`calculatePoint` reproduces the knot value exactly at every knot
except the last; at the last knot the evaluation reads `b_.at(4)` past
the end of the four-element coefficient array (see the
counterexample). -/
theorem C7_calculatePoint_at_knot (x y : Fin 5 → ℚ) (hm : StrictMono x) (i : Fin 5)
    (hi : (i : ℕ) < 4) :
    calculatePoint (mkSpline5 x y) (x i) = some (y i) := by
  fin_cases i
  · refine calculatePoint_eq_at_knot _ _ _ 0 ⟨x 0, rfl, lt_irrefl _⟩
      ⟨x 4, rfl, not_lt.mpr (hm (by decide : (0 : Fin 5) < 4)).le⟩ ?_ rfl rfl rfl rfl rfl
    show searchIndex [x 0, x 1, x 2, x 3, x 4] (x 0) = 0
    rw [searchIndex5, if_neg (not_le.mpr (hm (by decide : (0 : Fin 5) < 4))),
      if_neg (not_le.mpr (hm (by decide : (0 : Fin 5) < 3))),
      if_neg (not_le.mpr (hm (by decide : (0 : Fin 5) < 2))),
      if_neg (not_le.mpr (hm (by decide : (0 : Fin 5) < 1))), if_pos (le_refl _)]
  · refine calculatePoint_eq_at_knot _ _ _ 1
      ⟨x 0, rfl, not_lt.mpr (hm (by decide : (0 : Fin 5) < 1)).le⟩
      ⟨x 4, rfl, not_lt.mpr (hm (by decide : (1 : Fin 5) < 4)).le⟩ ?_ rfl rfl rfl rfl rfl
    show searchIndex [x 0, x 1, x 2, x 3, x 4] (x 1) = 1
    rw [searchIndex5, if_neg (not_le.mpr (hm (by decide : (1 : Fin 5) < 4))),
      if_neg (not_le.mpr (hm (by decide : (1 : Fin 5) < 3))),
      if_neg (not_le.mpr (hm (by decide : (1 : Fin 5) < 2))), if_pos (le_refl _)]
  · refine calculatePoint_eq_at_knot _ _ _ 2
      ⟨x 0, rfl, not_lt.mpr (hm (by decide : (0 : Fin 5) < 2)).le⟩
      ⟨x 4, rfl, not_lt.mpr (hm (by decide : (2 : Fin 5) < 4)).le⟩ ?_ rfl rfl rfl rfl rfl
    show searchIndex [x 0, x 1, x 2, x 3, x 4] (x 2) = 2
    rw [searchIndex5, if_neg (not_le.mpr (hm (by decide : (2 : Fin 5) < 4))),
      if_neg (not_le.mpr (hm (by decide : (2 : Fin 5) < 3))), if_pos (le_refl _)]
  · refine calculatePoint_eq_at_knot _ _ _ 3
      ⟨x 0, rfl, not_lt.mpr (hm (by decide : (0 : Fin 5) < 3)).le⟩
      ⟨x 4, rfl, not_lt.mpr (hm (by decide : (3 : Fin 5) < 4)).le⟩ ?_ rfl rfl rfl rfl rfl
    show searchIndex [x 0, x 1, x 2, x 3, x 4] (x 3) = 3
    rw [searchIndex5, if_neg (not_le.mpr (hm (by decide : (3 : Fin 5) < 4))),
      if_pos (le_refl _)]
  · exact absurd hi (by decide)

/-- Concrete strictly increasing knots for C7. -/
def C7x : Fin 5 → ℚ := ![0, 1, 2, 3, 4]

/-- Concrete knot values for C7. -/
def C7y : Fin 5 → ℚ := ![5, 6, 7, 8, 9]

/-- C7 counterexample: at the last knot `x_4 = 4` the claim demands the
value `y_4 = 9`, but the evaluation is undefined — `searchIndex`
returns 4 and `b_.at(4)` is past the end of the four-element
per-segment coefficient vector (`std::out_of_range`), modelled by
`none`. -/
theorem C7_counterexample : calculatePoint (mkSpline5 C7x C7y) (C7x 4) = none :=
  of_decide_eq_true (by with_unfolding_all rfl)

/-- C7 witness: the amended theorem applied at the concrete strictly
increasing knots, at knot 2. -/
theorem C7_calculatePoint_at_knot_witness :
    StrictMono C7x ∧ ((2 : Fin 5) : ℕ) < 4 ∧
    calculatePoint (mkSpline5 C7x C7y) (C7x 2) = some (C7y 2) :=
  ⟨of_decide_eq_true (by with_unfolding_all rfl), by decide,
    C7_calculatePoint_at_knot C7x C7y
      (of_decide_eq_true (by with_unfolding_all rfl)) 2 (by decide)⟩

/-- Flat-cost configuration for C3: a 3x3x3 grid with all cost weights
zero (`k_lat = k_lon = k_jerk = 0`), so every cell has estimated and
real cost exactly 0 — also in C++ doubles, where these products are
exact. -/
def C3cfg : Setting :=
  { predCfg with
    num_width := 3, num_speed := 3, num_t := 3
    highest_speed := 1, min_t := 1, max_t := 2, tick_t := 1 }

/-- The grid and seed index the planner builds for the flat-cost run
(lane bounds 1 / -1, current speed 0, start offset 0). -/
def C3gridSeed : List (List (List FrenetPath)) × Option (ℕ × ℕ × ℕ) :=
  sampleEndStates C3cfg 0 1 (-1) 0 0

/-- Initial search state for the flat-cost run: the freshly sampled
grid, empty candidate queue, zero generated count. -/
def C3init : SearchSt := ⟨C3gridSeed.1, [], 0⟩

/-- C3: on the flat-cost grid the search misbehaves exactly as the
missing `|g| > 0` guard predicts — the seed is the in-grid cell (0,0,0),
every gradient is zero, yet each `findNextBest` still steps `+1` along
axis 0; after three iterations the index is (3,0,0), outside the 3x3x3
grid, and the fourth iteration performs an out-of-bounds access
(`none`), so the loop neither stays in bounds nor terminates on its
own. -/
theorem C3_search_escapes_grid :
    C3gridSeed.2 = some (0, 0, 0) ∧
    gridSizes C3gridSeed.1 = (3, 3, 3) ∧
    Option.map (fun r => r.2.1)
        (searchLoop C3cfg polyId polyId startState0 3 C3init ((0 : ℤ), (0 : ℤ), (0 : ℤ))) =
      some ((3 : ℤ), (0 : ℤ), (0 : ℤ)) ∧
    searchLoop C3cfg polyId polyId startState0 4 C3init ((0 : ℤ), (0 : ℤ), (0 : ℤ)) = none :=
  of_decide_eq_true (by with_unfolding_all rfl)

end fop
